import Mathlib

/-!
Verification development for rtlog.py, a wrapper around the macOS `script`
command that records zsh sessions.  Python strings are modelled as `List Char`,
the singleton active-session state file as an `Option (List Char)` (its content,
or `none` when absent), filesystem permission effects as an association list
from paths to modes, and the metadata import pipeline as a fold over the list
of input lines, parameterised by the JSON parser.
-/

set_option maxRecDepth 4000

namespace Rtlog

/-! ## Python character and string primitives -/

/-- Characters Python `str.strip` removes (`str.isspace`), by code point -
the complete set: space, 9-13 (tab, newline, vertical tab, form feed,
carriage return), 28-31 (file/group/record/unit separator), 133 (next
line), 160 (no-break space), 0x1680 (ogham space mark), 0x2000-0x200A (en
quad through hair space), 0x2028 (line separator), 0x2029 (paragraph
separator), 0x202F (narrow no-break space), 0x205F (medium mathematical
space) and 0x3000 (ideographic space). -/
def pySpaceNat (n : Nat) : Bool :=
  decide (n = 32) || (decide (9 ≤ n) && decide (n ≤ 13)) ||
  (decide (28 ≤ n) && decide (n ≤ 31)) || decide (n = 133) ||
  decide (n = 160) || decide (n = 0x1680) ||
  (decide (0x2000 ≤ n) && decide (n ≤ 0x200A)) ||
  decide (n = 0x2028) || decide (n = 0x2029) || decide (n = 0x202F) ||
  decide (n = 0x205F) || decide (n = 0x3000)

def pyIsSpaceChar (c : Char) : Bool :=
  pySpaceNat c.toNat

/-- Python `str.isalnum` per code point, restricted to the Latin-1 range
(code points above 255 are outside the scope of this model and mapped to
`false`): ASCII digits and letters, plus the Latin-1 alphanumerics
ª(170) ²(178) ³(179) µ(181) ¹(185) º(186) ¼(188) ½(189) ¾(190) and the
Latin-1 letters 192-214, 216-246, 248-255 (excluding ×(215) and ÷(247)). -/
def pyAlnumNat (n : Nat) : Bool :=
  (decide (48 ≤ n) && decide (n ≤ 57)) ||
  (decide (65 ≤ n) && decide (n ≤ 90)) ||
  (decide (97 ≤ n) && decide (n ≤ 122)) ||
  decide (n = 170) || decide (n = 178) || decide (n = 179) ||
  decide (n = 181) || decide (n = 185) || decide (n = 186) ||
  decide (n = 188) || decide (n = 189) || decide (n = 190) ||
  (decide (192 ≤ n) && decide (n ≤ 214)) ||
  (decide (216 ≤ n) && decide (n ≤ 246)) ||
  (decide (248 ≤ n) && decide (n ≤ 255))

def pyIsAlnum (c : Char) : Bool :=
  pyAlnumNat c.toNat

/-- Python `str.strip()`: drop leading and trailing whitespace. -/
def pyStrip (l : List Char) : List Char :=
  ((l.dropWhile pyIsSpaceChar).reverse.dropWhile pyIsSpaceChar).reverse

/-- Python `str.split` with separator newline: `"a\nb".split` gives the
groups between the newlines; splitting the empty string gives one empty
group. -/
def splitNl : List Char → List (List Char)
  | [] => [[]]
  | c :: cs =>
    if c = '\n' then [] :: splitNl cs
    else
      match splitNl cs with
      | [] => [[c]]
      | g :: gs => (c :: g) :: gs

/-- Decimal value of a digit string. -/
def digitsVal (l : List Char) : Nat :=
  l.foldl (fun n c => 10 * n + (c.toNat - 48)) 0

/-- Python `int(s)` restricted to nonempty strings of ASCII decimal digits
(the only shape the program itself writes into the pid field); other inputs
raise `ValueError`, modelled as `none`. -/
def pyInt (l : List Char) : Option Nat :=
  if l.isEmpty then none
  else if l.all (fun c => decide ('0' ≤ c) && decide (c ≤ '9')) then
    some (digitsVal l)
  else none

/-- Recursion worker for decimal rendering; `fuel` only drives structural
termination and is irrelevant as long as it exceeds the argument. -/
def natDigitsF : Nat → Nat → List Char
  | 0, _ => []
  | fuel + 1, n =>
    if n < 10 then [Nat.digitChar n]
    else natDigitsF fuel (n / 10) ++ [Nat.digitChar (n % 10)]

/-- Python `str(n)` for a natural number: decimal digits, no leading zeros. -/
def natDigits (n : Nat) : List Char :=
  natDigitsF (n + 1) n

/-! ## sanitize_name (rtlog.py lines 208-215) -/

/-- One `str.replace(t, "_")` call for a single-character target. -/
def replChar (t : Char) (c : Char) : Char :=
  if c = t then '_' else c

/-- The character filter of `sanitize_name`:
`c.isalnum() or c in ['_', '-']`. -/
def keepChar (c : Char) : Bool :=
  pyIsAlnum c || decide (c = '_') || decide (c = '-')

/-- `sanitize_name` before the length check:
`name.strip().replace(' ', '_').replace('/', '_').replace(':', '_')`
followed by keeping only alphanumerics, `_` and `-`. -/
def sanitizeCore (name : List Char) : List Char :=
  ((((pyStrip name).map (replChar ' ')).map (replChar '/')).map
    (replChar ':')).filter keepChar

/-- `sanitize_name(name)` (rtlog.py lines 208-215); the Bool records whether
the truncation warning was printed (`len(name) > 50`). -/
def sanitize_name (name : List Char) : List Char × Bool :=
  let s := sanitizeCore name
  if 50 < s.length then (s.take 50, true) else (s, false)

/-- The character class of the spec's regex `^[A-Za-z0-9_-]{0,50}$`
(stated from the spec's words, to be compared with the code). -/
def specTokenNat (n : Nat) : Bool :=
  (decide (48 ≤ n) && decide (n ≤ 57)) ||
  (decide (65 ≤ n) && decide (n ≤ 90)) ||
  (decide (97 ≤ n) && decide (n ≤ 122)) ||
  decide (n = 95) || decide (n = 45)

def specTokenChar (c : Char) : Bool :=
  specTokenNat c.toNat

/-- Membership in the spec's regular expression `^[A-Za-z0-9_-]{0,50}$`. -/
def matchesSpecRegex (l : List Char) : Prop :=
  l.length ≤ 50 ∧ ∀ c ∈ l, specTokenChar c = true

/-! ## Session state tracker
(rtlog.py: start_session lines 264-267, status_session lines 320-334,
stop_session lines 298-318; STATE_FILE unlink in start's finally block).
The state is the content of `STATE_FILE`, or `none` when the file is
absent. -/

/-- The content `start_session` writes to `STATE_FILE` (line 266):
`f"{session_dir}\n{session_id}\n{os.getpid()}"` - three newline-separated
fields with no trailing newline. -/
def stateContent (dir sid : List Char) (pid : Nat) : List Char :=
  dir ++ '\n' :: (sid ++ '\n' :: natDigits pid)

/-- `start_session`'s state-record write (lines 264-267): the file is opened
with mode `'w'`, which creates or truncates it unconditionally - there is no
check for an existing record, so any previous record is overwritten. -/
def begin_session (_st : Option (List Char)) (dir sid : List Char)
    (pid : Nat) : Option (List Char) :=
  some (stateContent dir sid pid)

/-- Deletion of the state record (`STATE_FILE.unlink()` guarded by
`STATE_FILE.exists()`): the file is absent afterwards in every case. -/
def end_session (_st : Option (List Char)) : Option (List Char) :=
  none

inductive CurrentResult where
  | noSession
  | active (dir sid pid : List Char)
  | corrupt
deriving DecidableEq

/-- `status_session` (lines 320-334): no file means no active session;
otherwise `f.read().strip().split('\n')` must unpack into exactly three
fields, and any other shape raises `ValueError`, caught by the generic
handler (modelled as `corrupt`). -/
def current (st : Option (List Char)) : CurrentResult :=
  match st with
  | none => CurrentResult.noSession
  | some content =>
    match splitNl (pyStrip content) with
    | [d, i, p] => CurrentResult.active d i p
    | _ => CurrentResult.corrupt

inductive StopOutcome where
  | noSession
  | stopped
  | errorReport
deriving DecidableEq

structure StopEffects where
  state : Option (List Char)
  sigtermTarget : Option Nat
  auditStopAppended : Bool
  outcome : StopOutcome
deriving DecidableEq

/-- `stop_session()` (lines 298-318), with `alive` telling whether the
recorded owner process still exists.  The record is read and split into
three fields (otherwise `ValueError` lands in the generic handler); then
`os.kill(int(pid), signal.SIGTERM)` is attempted.  When the process is
already gone, `ProcessLookupError` is swallowed and the function proceeds
to unlink the state file and append the `session_stop` audit event.  When
the process is alive, `os.kill` succeeds and the next statement
`time.sleep(0.1)` (line 310) raises `NameError`, because the module `time`
is never imported by rtlog.py; that exception is caught by the outer
`except Exception` handler, so the state file is NOT unlinked and no
`session_stop` audit event is appended. -/
def stop_session (st : Option (List Char)) (alive : Bool) : StopEffects :=
  match st with
  | none => ⟨none, none, false, StopOutcome.noSession⟩
  | some content =>
    match splitNl (pyStrip content) with
    | [_d, _i, p] =>
      match pyInt p with
      | none => ⟨some content, none, false, StopOutcome.errorReport⟩
      | some pid =>
        if alive then
          ⟨some content, some pid, false, StopOutcome.errorReport⟩
        else
          ⟨none, some pid, true, StopOutcome.stopped⟩
    | _ => ⟨some content, none, false, StopOutcome.errorReport⟩

/-! ## Metadata import / VECTR export (rtlog.py lines 336-366)
The pipeline is parameterised by the JSON line parser (the `json.loads`
call), since that is a Python library function external to the program. -/

inductive Json where
  | null
  | bool (b : Bool)
  | num (n : Int)
  | str (s : List Char)
  | arr (elems : List Json)
  | obj (fields : List (List Char × Json))

def eventsKey : List Char := ("events").toList

def mappedKey : List Char := ("mapped").toList

/-- A line is skipped when `line.strip()` is falsy, i.e. empty. -/
def isBlank (l : List Char) : Bool :=
  (pyStrip l).isEmpty

/-- The wrapping applied when a template path was supplied:
`event = {"mapped": event}` (line 351). -/
def wrapEvent (template : Bool) (e : Json) : Json :=
  if template then Json.obj [(mappedKey, e)] else e

/-- One iteration of the read loop (lines 346-354): blank lines are skipped
before the parse is attempted; a parsed event is (possibly wrapped and)
appended; a `JSONDecodeError` prints one warning and skips only that
line. The accumulator is the events list and the warning count. -/
def importStep (parse : List Char → Option Json) (template : Bool)
    (acc : List Json × Nat) (line : List Char) : List Json × Nat :=
  if isBlank line then acc
  else
    match parse line with
    | some e => (acc.1 ++ [wrapEvent template e], acc.2)
    | none => (acc.1, acc.2 + 1)

/-- `import_vectr` (lines 336-366) at the document level: the whole stream
is folded through the read loop and the events are wrapped in
`vectr = {'events': events}` (line 358); returned together with the number
of malformed-line warnings printed. -/
def import_vectr (parse : List Char → Option Json) (template : Bool)
    (lines : List (List Char)) : Json × Nat :=
  let r := lines.foldl (importStep parse template) ([], 0)
  (Json.obj [(eventsKey, Json.arr r.1)], r.2)

/-- Modelled fragment of Python `json.loads` for concrete inputs used in
witnesses: a (possibly whitespace-surrounded) nonempty digit string parses
as a number and the literal `null` parses as null, while the empty string,
whitespace-only strings and stray words raise `JSONDecodeError`, modelled
as `none` - faithful to the JSON grammar on all inputs it is applied to. -/
def jsonLoadsFragment (line : List Char) : Option Json :=
  let s := pyStrip line
  if s.isEmpty then none
  else if s.all (fun c => decide ('0' ≤ c) && decide (c ≤ '9')) then
    some (Json.num (Int.ofNat (digitsVal s)))
  else if s = ("null").toList then some Json.null
  else none

/-! ## Timestamps and session directory names
(rtlog.py lines 226-234).  `strftime("%Y%m%dT%H%M%SZ")` renders each field
as fixed-width zero-padded decimal. -/

/-- Fixed-width zero-padded decimal rendering: `padNum k n` is the last `k`
decimal digits of `n`, most significant first (all of `n` when
`n < 10 ^ k`). -/
def padNum : Nat → Nat → List Char
  | 0, _ => []
  | k + 1, n => padNum k (n / 10) ++ [Nat.digitChar (n % 10)]

structure DateTime where
  year : Nat
  month : Nat
  day : Nat
  hour : Nat
  minute : Nat
  second : Nat

/-- Each component fits the width its format field prints. -/
def fitsWidth (t : DateTime) : Prop :=
  t.year < 10000 ∧ t.month < 100 ∧ t.day < 100 ∧
  t.hour < 100 ∧ t.minute < 100 ∧ t.second < 100

/-- `datetime.strftime("%Y%m%dT%H%M%SZ")` (line 226). -/
def formatTimestamp (t : DateTime) : List Char :=
  padNum 4 t.year ++ (padNum 2 t.month ++ (padNum 2 t.day ++
    ('T' :: (padNum 2 t.hour ++ (padNum 2 t.minute ++
      (padNum 2 t.second ++ ['Z']))))))

/-- Strict lexicographic order on character lists (character order first,
then the shorter list is smaller). -/
def lexLt : List Char → List Char → Bool
  | [], [] => false
  | [], _ :: _ => true
  | _ :: _, [] => false
  | a :: as, b :: bs => decide (a < b) || (decide (a = b) && lexLt as bs)

/-- Chronological (componentwise-lexicographic) order on date-times. -/
def chronoLt (a b : DateTime) : Bool :=
  decide (a.year < b.year) || (decide (a.year = b.year) &&
    (decide (a.month < b.month) || (decide (a.month = b.month) &&
      (decide (a.day < b.day) || (decide (a.day = b.day) &&
        (decide (a.hour < b.hour) || (decide (a.hour = b.hour) &&
          (decide (a.minute < b.minute) || (decide (a.minute = b.minute) &&
            decide (a.second < b.second))))))))))

/-- `name_part = f"_{sanitize_name(name)}" if name else ""` (line 229):
`None` and the empty string are both falsy. -/
def name_part (name : Option (List Char)) : List Char :=
  match name with
  | none => []
  | some n => if n.isEmpty then [] else '_' :: (sanitize_name n).1

/-- `session_dir = outdir / f"{now}_{hostname}_{user}{name_part}"`
(line 230), with `Path./` joining on a slash. -/
def session_path (outdir now hostname user : List Char)
    (name : Option (List Char)) : List Char :=
  outdir ++ '/' :: (now ++ '_' :: hostname ++ '_' :: user ++ name_part name)

/-! ## Filesystem permission effects (rtlog.py lines 198-206, 231-241,
264-267, 360-363).  The filesystem is an association list from paths
(component lists) to permission modes, holding the entries relevant to the
trace; `umask` is the process umask. -/

def FS : Type := List (List String × Nat)

def fsLookup (fs : FS) (p : List String) : Option Nat :=
  match fs with
  | [] => none
  | (q, m) :: rest => if q = p then some m else fsLookup rest p

/-- Creation modes are filtered through the umask (assumed `≤ 0o777`, so
xor with `0o777` is complement on the permission bits); `chmod` is not. -/
def applyUmask (umask mode : Nat) : Nat :=
  mode &&& (0o777 ^^^ umask)

/-- `os.mkdir` / `open`-create / `touch` of a single entry: creates the
entry with the mode filtered through the umask, and leaves an existing
entry untouched. -/
def mkOne (umask : Nat) (fs : FS) (p : List String) (mode : Nat) : FS :=
  match fsLookup fs p with
  | some _ => fs
  | none => (p, applyUmask umask mode) :: fs

/-- `os.chmod`: sets the exact mode, not filtered through the umask. -/
def chmodFS (fs : FS) (p : List String) (mode : Nat) : FS :=
  fs.map (fun e => if e.1 = p then (e.1, mode) else e)

/-- `Path.mkdir(parents=True, mode=m)` as CPython implements it: the
missing ancestors are created first, shallowest first, by recursive
`mkdir(parents=True, exist_ok=True)` calls with the DEFAULT mode `0o777`,
and only the final directory receives the requested mode. -/
def mkdirs (umask : Nat) (fs : FS) (p : List String) (mode : Nat) : FS :=
  mkOne umask
    ((p.dropLast.inits.filter (fun q => !q.isEmpty)).foldl
      (fun acc q => mkOne umask acc q 0o777) fs)
    p mode

/-- `log_audit_event` (lines 198-206) as a filesystem effect: `open(audit,
'a')` creates the file with default mode `0o666` (through the umask) when
absent, then `os.chmod(audit_file, 0o600)` re-hardens it after the append. -/
def auditAppendFS (umask : Nat) (fs : FS) (dir : List String) : FS :=
  chmodFS (mkOne umask fs (dir ++ ["audit.log"]) 0o666)
    (dir ++ ["audit.log"]) 0o600

/-- `file_path.touch(mode=0o600)` followed by `os.chmod(file_path, 0o600)`
(lines 238-241). -/
def touchSecure (umask : Nat) (fs : FS) (p : List String) : FS :=
  chmodFS (mkOne umask fs p 0o600) p 0o600

/-- The filesystem trace of `start_session` (lines 231-267): session
directory via `mkdir(parents=True, mode=0o700)`, the `session_start` audit
append, the two secured empty files, `STATE_FILE.parent.mkdir(parents=True,
mode=0o700)` and the state-file write followed by `chmod 0o600`. -/
def start_session_fs (umask : Nat) (fs : FS)
    (sessionPath statePath : List String) : FS :=
  let fs1 := mkdirs umask fs sessionPath 0o700
  let fs2 := auditAppendFS umask fs1 sessionPath
  let fs3 := touchSecure umask fs2 (sessionPath ++ ["commands.jsonl"])
  let fs4 := touchSecure umask fs3 (sessionPath ++ ["commands.log"])
  let fs5 := mkdirs umask fs4 statePath.dropLast 0o700
  chmodFS (mkOne umask fs5 statePath 0o666) statePath 0o600

/-- Owner-only permission: no group or other bits set. -/
def ownerOnly (mode : Nat) : Bool :=
  (mode &&& 0o077) == 0

/-! ## Helper lemmas on the string primitives -/

theorem dropWhile_eq_self_of_forall {p : Char → Bool} {l : List Char}
    (h : ∀ c ∈ l, p c = false) : l.dropWhile p = l := by
  cases l with
  | nil => rfl
  | cons a t => rw [List.dropWhile_cons, h a (by simp)]; simp

theorem mem_pyStrip {c : Char} {l : List Char} (h : c ∈ pyStrip l) :
    c ∈ l := by
  unfold pyStrip at h
  rw [List.mem_reverse] at h
  have h2 : c ∈ (l.dropWhile pyIsSpaceChar).reverse :=
    List.Sublist.mem h (List.dropWhile_sublist _)
  rw [List.mem_reverse] at h2
  exact List.Sublist.mem h2 (List.dropWhile_sublist _)

theorem pyStrip_eq_self {l : List Char}
    (h : ∀ c ∈ l, pyIsSpaceChar c = false) : pyStrip l = l := by
  unfold pyStrip
  rw [dropWhile_eq_self_of_forall h]
  rw [dropWhile_eq_self_of_forall (fun c hc => h c (List.mem_reverse.mp hc))]
  exact List.reverse_reverse l

theorem map_eq_self_of_forall {f : Char → Char} {l : List Char}
    (h : ∀ c ∈ l, f c = c) : l.map f = l := by
  induction l with
  | nil => rfl
  | cons a t ih =>
    simp only [List.map_cons, h a (by simp)]
    rw [ih (fun c hc => h c (by simp [hc]))]

theorem alnum_not_space {n : Nat} (h : pyAlnumNat n = true) :
    pySpaceNat n = false := by
  unfold pyAlnumNat at h
  unfold pySpaceNat
  simp only [Bool.or_eq_true, Bool.and_eq_true, decide_eq_true_eq] at h
  rw [← Bool.not_eq_true]
  simp only [Bool.or_eq_true, Bool.and_eq_true, decide_eq_true_eq]
  omega

theorem keep_not_space {c : Char} (h : keepChar c = true) :
    pyIsSpaceChar c = false := by
  unfold keepChar at h
  simp only [Bool.or_eq_true] at h
  rcases h with (h1 | h2) | h3
  · exact alnum_not_space h1
  · rw [decide_eq_true_eq] at h2
    subst h2
    decide
  · rw [decide_eq_true_eq] at h3
    subst h3
    decide

theorem keep_ne {c t : Char} (h : keepChar c = true)
    (ht : keepChar t = false) : c ≠ t := by
  rintro rfl
  rw [h] at ht
  cases ht

theorem replChar_eq_self {t c : Char} (h : c ≠ t) : replChar t c = c := by
  unfold replChar
  rw [if_neg h]

/-! ## sanitize_name lemmas -/

theorem sanitize_name_mem_core {name : List Char} {c : Char}
    (h : c ∈ (sanitize_name name).1) : c ∈ sanitizeCore name := by
  by_cases hlen : 50 < (sanitizeCore name).length
  · simp only [sanitize_name, if_pos hlen] at h
    exact List.Sublist.mem h (List.take_sublist _ _)
  · simp only [sanitize_name, if_neg hlen] at h
    exact h

theorem sanitize_core_keep {name : List Char} {c : Char}
    (h : c ∈ sanitizeCore name) : keepChar c = true :=
  (List.mem_filter.mp h).2

theorem sanitize_name_len (name : List Char) :
    (sanitize_name name).1.length ≤ 50 := by
  by_cases hlen : 50 < (sanitizeCore name).length
  · simp only [sanitize_name, if_pos hlen]
    rw [List.length_take]
    exact min_le_left _ _
  · simp only [sanitize_name, if_neg hlen]
    omega

theorem sanitize_name_warn_iff (name : List Char) :
    (sanitize_name name).2 = true ↔ 50 < (sanitizeCore name).length := by
  by_cases hlen : 50 < (sanitizeCore name).length
  · simp only [sanitize_name, if_pos hlen]
    simpa using hlen
  · simp only [sanitize_name, if_neg hlen]
    simpa using hlen

theorem sanitize_name_fixed {l : List Char}
    (hk : ∀ c ∈ l, keepChar c = true) (hlen : l.length ≤ 50) :
    sanitize_name l = (l, false) := by
  have r1 : l.map (replChar ' ') = l :=
    map_eq_self_of_forall (fun c hc =>
      replChar_eq_self (keep_ne (hk c hc) (by decide)))
  have r2 : l.map (replChar '/') = l :=
    map_eq_self_of_forall (fun c hc =>
      replChar_eq_self (keep_ne (hk c hc) (by decide)))
  have r3 : l.map (replChar ':') = l :=
    map_eq_self_of_forall (fun c hc =>
      replChar_eq_self (keep_ne (hk c hc) (by decide)))
  have hcore : sanitizeCore l = l := by
    unfold sanitizeCore
    rw [pyStrip_eq_self (fun c hc => keep_not_space (hk c hc)), r1, r2, r3]
    exact List.filter_eq_self.mpr hk
  simp only [sanitize_name, hcore]
  rw [if_neg (by omega)]

theorem replChar_ascii {t c : Char} (h : c.toNat < 128) :
    (replChar t c).toNat < 128 := by
  unfold replChar
  split
  · decide
  · exact h

theorem keep_ascii_token {c : Char} (ha : c.toNat < 128)
    (hk : keepChar c = true) : specTokenChar c = true := by
  unfold keepChar at hk
  simp only [Bool.or_eq_true] at hk
  rcases hk with (h1 | h2) | h3
  · unfold pyIsAlnum pyAlnumNat at h1
    unfold specTokenChar specTokenNat
    simp only [Bool.or_eq_true, Bool.and_eq_true, decide_eq_true_eq] at h1 ⊢
    omega
  · rw [decide_eq_true_eq] at h2
    subst h2
    decide
  · rw [decide_eq_true_eq] at h3
    subst h3
    decide

theorem sanitize_core_ascii {name : List Char}
    (h : ∀ c ∈ name, c.toNat < 128) :
    ∀ c ∈ sanitizeCore name, c.toNat < 128 := by
  intro c hc
  have hmaps := (List.mem_filter.mp hc).1
  obtain ⟨b, hb, rfl⟩ := List.mem_map.mp hmaps
  obtain ⟨a, ha, rfl⟩ := List.mem_map.mp hb
  obtain ⟨d, hd, rfl⟩ := List.mem_map.mp ha
  exact replChar_ascii (replChar_ascii (replChar_ascii
    (h d (mem_pyStrip hd))))

/-- C3 (amended): for every input consisting of ASCII characters, the
output of sanitize matches `^[A-Za-z0-9_-]{0,50}$`, and the truncation
warning is printed exactly when the filtered name exceeds 50 characters
(truncation occurs).  (The ASCII hypothesis is needed because Python
`isalnum` also keeps non-ASCII alphanumerics such as é.) -/
theorem sanitize_ascii_matches_regex (name : List Char)
    (h : ∀ c ∈ name, c.toNat < 128) :
    matchesSpecRegex ((sanitize_name name).1) ∧
      ((sanitize_name name).2 = true ↔ 50 < (sanitizeCore name).length) := by
  refine ⟨⟨sanitize_name_len name, ?_⟩, sanitize_name_warn_iff name⟩
  intro c hc
  have hmem := sanitize_name_mem_core hc
  exact keep_ascii_token (sanitize_core_ascii h c hmem)
    (sanitize_core_keep hmem)

/-- Witness for C3 at the concrete input `"T1190 Exploit!!"`. -/
theorem sanitize_ascii_matches_regex_witness :
    matchesSpecRegex ((sanitize_name (("T1190 Exploit!!").toList)).1) ∧
      ((sanitize_name (("T1190 Exploit!!").toList)).2 = true ↔
        50 < (sanitizeCore (("T1190 Exploit!!").toList)).length) :=
  sanitize_ascii_matches_regex _ (by decide)

/-- C3 counterexample: on the one-character input é (a non-ASCII character
that Python `isalnum` accepts), sanitize returns é unchanged, which does
not match `^[A-Za-z0-9_-]{0,50}$` - the claim's universal statement over
every input string is false. -/
theorem sanitize_nonascii_escapes_regex :
    (sanitize_name (['é'])).1 = ['é'] ∧
      ¬ matchesSpecRegex ((sanitize_name (['é'])).1) := by
  constructor
  · decide
  · intro hm
    have := hm.2 'é' (by decide)
    revert this
    decide

/-- C9: sanitize is idempotent - applied to its own output it returns that
output unchanged, and without a truncation warning. -/
theorem sanitize_name_idempotent (name : List Char) :
    sanitize_name ((sanitize_name name).1) = ((sanitize_name name).1, false) :=
  sanitize_name_fixed
    (fun _ hc => sanitize_core_keep (sanitize_name_mem_core hc))
    (sanitize_name_len name)

/-! ## Decimal rendering lemmas -/

theorem natDigitsF_congr :
    ∀ n f1 f2, n < f1 → n < f2 → natDigitsF f1 n = natDigitsF f2 n := by
  intro n
  induction n using Nat.strong_induction_on with
  | _ n ih =>
    intro f1 f2 h1 h2
    cases f1 with
    | zero => omega
    | succ g1 =>
      cases f2 with
      | zero => omega
      | succ g2 =>
        simp only [natDigitsF]
        by_cases h : n < 10
        · simp [h]
        · rw [if_neg h, if_neg h,
            ih (n / 10) (Nat.div_lt_self (by omega) (by omega)) g1 g2
              (by omega) (by omega)]

theorem natDigits_step (n : Nat) :
    natDigits n =
      if n < 10 then [Nat.digitChar n]
      else natDigits (n / 10) ++ [Nat.digitChar (n % 10)] := by
  have base : natDigitsF (n + 1) n =
      if n < 10 then [Nat.digitChar n]
      else natDigitsF n (n / 10) ++ [Nat.digitChar (n % 10)] := rfl
  unfold natDigits
  rw [base]
  by_cases h : n < 10
  · rw [if_pos h, if_pos h]
  · rw [if_neg h, if_neg h,
      natDigitsF_congr (n / 10) n (n / 10 + 1) (by omega) (by omega)]

theorem natDigits_concat (n : Nat) :
    ∃ rest, natDigits n = rest ++ [Nat.digitChar (n % 10)] := by
  rw [natDigits_step]
  by_cases h : n < 10
  · exact ⟨[], by rw [if_pos h, Nat.mod_eq_of_lt h]; simp⟩
  · exact ⟨natDigits (n / 10), by rw [if_neg h]⟩

theorem natDigits_digit {n : Nat} {c : Char} (hc : c ∈ natDigits n) :
    ∃ d, d < 10 ∧ c = Nat.digitChar d := by
  induction n using Nat.strong_induction_on with
  | _ n ih =>
    rw [natDigits_step] at hc
    by_cases h : n < 10
    · rw [if_pos h] at hc
      exact ⟨n, h, List.mem_singleton.mp hc⟩
    · rw [if_neg h] at hc
      rcases List.mem_append.mp hc with h1 | h2
      · exact ih (n / 10) (Nat.div_lt_self (by omega) (by omega)) h1
      · exact ⟨n % 10, Nat.mod_lt _ (by omega), List.mem_singleton.mp h2⟩

theorem digitChar_not_space : ∀ d < 10, pyIsSpaceChar (Nat.digitChar d) = false := by
  decide

theorem digitChar_not_nl : ∀ d < 10, Nat.digitChar d ≠ '\n' := by
  decide

/-! ## State tracker lemmas -/

theorem dropWhile_cons_of_neg {p : Char → Bool} {a : Char} {X : List Char}
    (h : p a = false) : (a :: X).dropWhile p = a :: X := by
  rw [List.dropWhile_cons]
  simp [h]

theorem pyStrip_of_ends {a b : Char} (X : List Char)
    (ha : pyIsSpaceChar a = false) (hb : pyIsSpaceChar b = false) :
    pyStrip (a :: (X ++ [b])) = a :: (X ++ [b]) := by
  unfold pyStrip
  rw [dropWhile_cons_of_neg ha]
  rw [show (a :: (X ++ [b])).reverse = b :: (X.reverse ++ [a]) by simp]
  rw [dropWhile_cons_of_neg hb]
  simp

theorem pyStrip_stateContent {d0 : Char} (dir' sid : List Char) (pid : Nat)
    (hd0 : pyIsSpaceChar d0 = false) :
    pyStrip (stateContent (d0 :: dir') sid pid) =
      stateContent (d0 :: dir') sid pid := by
  obtain ⟨rest, hr⟩ := natDigits_concat pid
  have hsplit : stateContent (d0 :: dir') sid pid =
      d0 :: ((dir' ++ '\n' :: (sid ++ '\n' :: rest)) ++
        [Nat.digitChar (pid % 10)]) := by
    unfold stateContent
    rw [hr]
    simp
  rw [hsplit]
  exact pyStrip_of_ends _ hd0
    (digitChar_not_space _ (Nat.mod_lt _ (by omega)))

theorem splitNl_no_nl {a : List Char} (h : '\n' ∉ a) : splitNl a = [a] := by
  induction a with
  | nil => rfl
  | cons c cs ih =>
    simp only [splitNl]
    rw [if_neg (Ne.symm (List.ne_of_not_mem_cons h)),
      ih (List.not_mem_of_not_mem_cons h)]

theorem splitNl_append {a : List Char} (b : List Char) (h : '\n' ∉ a) :
    splitNl (a ++ '\n' :: b) = a :: splitNl b := by
  induction a with
  | nil => simp [splitNl]
  | cons c cs ih =>
    simp only [List.cons_append, splitNl, List.append_eq]
    rw [if_neg (Ne.symm (List.ne_of_not_mem_cons h)),
      ih (List.not_mem_of_not_mem_cons h)]

theorem splitNl_stateContent {dir sid : List Char} (pid : Nat)
    (h3 : '\n' ∉ dir) (h4 : '\n' ∉ sid) :
    splitNl (stateContent dir sid pid) = [dir, sid, natDigits pid] := by
  have hdig : '\n' ∉ natDigits pid := by
    intro hm
    obtain ⟨d, hd, he⟩ := natDigits_digit hm
    exact digitChar_not_nl d hd he.symm
  unfold stateContent
  rw [splitNl_append _ h3, splitNl_append _ h4, splitNl_no_nl hdig]

theorem current_some {content d i p : List Char}
    (h : splitNl (pyStrip content) = [d, i, p]) :
    current (some content) = CurrentResult.active d i p := by
  have e : current (some content) =
      (match splitNl (pyStrip content) with
        | [d1, i1, p1] => CurrentResult.active d1 i1 p1
        | _ => CurrentResult.corrupt) := rfl
  rw [e, h]

theorem current_stateContent {d0 : Char} {dir' sid : List Char} {pid : Nat}
    (hd0 : pyIsSpaceChar d0 = false) (h3 : '\n' ∉ d0 :: dir')
    (h4 : '\n' ∉ sid) :
    current (some (stateContent (d0 :: dir') sid pid)) =
      CurrentResult.active (d0 :: dir') sid (natDigits pid) :=
  current_some (by
    rw [pyStrip_stateContent dir' sid pid hd0, splitNl_stateContent pid h3 h4])

/-- C5 (amended): for every directory and id that contain no newline, where
the directory is nonempty and does not start with a whitespace character
(`str.strip` on read-back would otherwise eat into the fields), begin
followed by current returns exactly the written fields, end followed by
current reports no active session, and the record splits on newlines into
exactly the three written fields. -/
theorem begin_current_round_trip (dir sid : List Char) (pid : Nat)
    (h1 : dir ≠ []) (h2 : pyIsSpaceChar (dir.headD '0') = false)
    (h3 : '\n' ∉ dir) (h4 : '\n' ∉ sid) :
    current (begin_session none dir sid pid) =
      CurrentResult.active dir sid (natDigits pid) ∧
    current (end_session (begin_session none dir sid pid)) =
      CurrentResult.noSession ∧
    splitNl (stateContent dir sid pid) = [dir, sid, natDigits pid] := by
  obtain ⟨d0, dir', rfl⟩ := List.exists_cons_of_ne_nil h1
  refine ⟨?_, rfl, splitNl_stateContent pid h3 h4⟩
  exact current_stateContent (by simpa using h2) h3 h4

/-- Witness for C5 at a concrete directory, id and pid. -/
theorem begin_current_round_trip_witness :
    current (begin_session none (("/tmp/rt/s1").toList) (("ab12").toList)
        4321) =
      CurrentResult.active (("/tmp/rt/s1").toList) (("ab12").toList)
        (natDigits 4321) ∧
    current (end_session (begin_session none (("/tmp/rt/s1").toList)
        (("ab12").toList) 4321)) = CurrentResult.noSession ∧
    splitNl (stateContent (("/tmp/rt/s1").toList) (("ab12").toList) 4321) =
      [("/tmp/rt/s1").toList, ("ab12").toList, natDigits 4321] :=
  begin_current_round_trip _ _ _ (by decide) (by decide) (by decide)
    (by decide)

/-- C5 counterexample: for a directory whose text contains a newline, the
record read back is not the written fields but a corrupt-state error, so
the claim's universal quantification over every directory fails. -/
theorem begin_current_newline_corrupt :
    current (begin_session none (("a\nb").toList) (("sid1").toList) 7) =
      CurrentResult.corrupt ∧
    CurrentResult.corrupt ≠
      CurrentResult.active (("a\nb").toList) (("sid1").toList)
        (natDigits 7) := by
  constructor
  · decide
  · decide

/-- C1 (amended): invoking begin while a state record already exists does
not fail - the existing record is silently overwritten, and the second of
two consecutive begin calls succeeds: current afterwards reports the second
call's fields. -/
theorem second_begin_succeeds_overwriting (d1 i1 : List Char) (p1 : Nat)
    (d2 i2 : List Char) (p2 : Nat) (h1 : d2 ≠ [])
    (h2 : pyIsSpaceChar (d2.headD '0') = false) (h3 : '\n' ∉ d2)
    (h4 : '\n' ∉ i2) :
    begin_session (begin_session none d1 i1 p1) d2 i2 p2 =
      some (stateContent d2 i2 p2) ∧
    current (begin_session (begin_session none d1 i1 p1) d2 i2 p2) =
      CurrentResult.active d2 i2 (natDigits p2) := by
  obtain ⟨d0, dir', rfl⟩ := List.exists_cons_of_ne_nil h1
  exact ⟨rfl, current_stateContent (by simpa using h2) h3 h4⟩

/-- Witness for C1's amended statement at concrete records. -/
theorem second_begin_succeeds_overwriting_witness :
    begin_session (begin_session none (("/tmp/a").toList) (("id1").toList)
        1) (("/tmp/b").toList) (("id2").toList) 2 =
      some (stateContent (("/tmp/b").toList) (("id2").toList) 2) ∧
    current (begin_session (begin_session none (("/tmp/a").toList)
        (("id1").toList) 1) (("/tmp/b").toList) (("id2").toList) 2) =
      CurrentResult.active (("/tmp/b").toList) (("id2").toList)
        (natDigits 2) :=
  second_begin_succeeds_overwriting _ _ _ _ _ _ (by decide) (by decide)
    (by decide) (by decide)

/-- C1 counterexample: a second begin without an intervening end does NOT
leave the existing record unchanged - the state after the second call
differs from the state the first call wrote, contradicting the claim that
the second call fails with StateConflict leaving the record intact. -/
theorem second_begin_changes_record :
    begin_session (begin_session none (("/tmp/a").toList)
        (("id1").toList) 1) (("/tmp/b").toList) (("id2").toList) 2 ≠
      begin_session none (("/tmp/a").toList) (("id1").toList) 1 := by
  decide

/-- C2: evaluation of stop at a well-formed record.  When the recorded
owner process is still alive, `os.kill` succeeds and the unimported-module
reference `time.sleep(0.1)` raises `NameError`, so stop reports a generic
error and neither deletes the state record nor appends the `session_stop`
audit event; only when the process is already gone (the
`ProcessLookupError` path) does stop delete the record and append the
audit event as the claim describes. -/
theorem stop_live_owner_skips_cleanup :
    stop_session (some (stateContent (("/tmp/rt/s1").toList)
        (("sid-1").toList) 4321)) true =
      ⟨some (stateContent (("/tmp/rt/s1").toList) (("sid-1").toList) 4321),
        some 4321, false, StopOutcome.errorReport⟩ ∧
    stop_session (some (stateContent (("/tmp/rt/s1").toList)
        (("sid-1").toList) 4321)) false =
      ⟨none, some 4321, true, StopOutcome.stopped⟩ := by
  constructor
  · decide
  · decide

/-! ## Import pipeline lemmas -/

theorem importStep_fold (parse : List Char → Option Json) (template : Bool)
    (lines : List (List Char)) :
    ∀ acc : List Json × Nat,
      lines.foldl (importStep parse template) acc =
        (acc.1 ++ (((lines.filter (fun l => !(isBlank l))).filterMap
            parse).map (wrapEvent template)),
          acc.2 + ((lines.filter (fun l => !(isBlank l))).filter
            (fun l => (parse l).isNone)).length) := by
  induction lines with
  | nil => intro acc; simp
  | cons a rest ih =>
    intro acc
    rw [List.foldl_cons, ih]
    by_cases hb : isBlank a
    · simp [importStep, hb]
    · cases hp : parse a with
      | some e =>
        simp [importStep, hb, hp, List.filter_cons, List.filterMap_cons]
      | none =>
        simp [importStep, hb, hp, List.filter_cons, List.filterMap_cons]
        omega

/-- C4 (amended): for every stream, the exported document holds, in input
order, exactly the events of the non-blank lines that parse (wrapped when a
template is given), and one warning is emitted for exactly each non-blank
line that fails to parse; blank lines contribute neither.  In particular a
malformed line between two valid lines prevents neither valid line from
being read. -/
theorem import_events_order_and_warnings (parse : List Char → Option Json)
    (template : Bool) (lines : List (List Char)) :
    import_vectr parse template lines =
      (Json.obj [(eventsKey, Json.arr (((lines.filter
          (fun l => !(isBlank l))).filterMap parse).map
          (wrapEvent template)))],
        ((lines.filter (fun l => !(isBlank l))).filter
          (fun l => (parse l).isNone)).length) := by
  simp only [import_vectr]
  rw [importStep_fold parse template lines ([], 0)]
  simp

/-- C4 counterexample: in the stream `["1", " ", "x"]` two lines fail to
parse as JSON (the whitespace-only line and `x`), but only one warning is
emitted - the whitespace-only line is skipped silently before the parse is
attempted, so the claim's count of one warning per non-parsing line is
false. -/
theorem import_warning_count_mismatch :
    (import_vectr jsonLoadsFragment false [['1'], [' '], ['x']]).2 = 1 ∧
    ([['1'], [' '], ['x']].filter
      (fun l => (jsonLoadsFragment l).isNone)).length = 2 := by
  constructor
  · decide
  · decide

/-- C7: the export document always has the exact shape
`{"events": [...]}`: an empty metadata stream yields a document with an
empty events array (for any template setting), and when a template is
supplied every inserted event is wrapped as `{"mapped": event}`. -/
theorem export_document_shape (parse : List Char → Option Json) :
    (∀ template, import_vectr parse template [] =
      (Json.obj [(eventsKey, Json.arr [])], 0)) ∧
    (∀ lines, (import_vectr parse true lines).1 =
      Json.obj [(eventsKey, Json.arr (((lines.filter
        (fun l => !(isBlank l))).filterMap parse).map
        (fun e => Json.obj [(mappedKey, e)])))]) := by
  constructor
  · intro template
    simp [import_vectr]
  · intro lines
    simp only [import_vectr]
    rw [importStep_fold parse true lines ([], 0)]
    simp [wrapEvent]

/-- C10: lines that are empty or whitespace-only are skipped silently -
deleting them from the input stream changes neither the produced events
nor the warning count. -/
theorem import_skips_blank_lines (parse : List Char → Option Json)
    (template : Bool) (lines : List (List Char)) :
    import_vectr parse template lines =
      import_vectr parse template
        (lines.filter (fun l => !(isBlank l))) := by
  simp only [import_vectr]
  rw [importStep_fold parse template lines ([], 0),
    importStep_fold parse template
      (lines.filter (fun l => !(isBlank l))) ([], 0)]
  rw [List.filter_filter]
  simp

/-- C8: permission-hardening evaluated on a `start` where the outdir
`/tmp/rt` does not exist yet (session directory `/tmp/rt/s1`, state file
`/home/.rt_command_logger/.rtlog_state`, umask `0o022`).  The intermediate
directory `/tmp/rt` is created by `Path.mkdir(parents=True)` with the
default mode and ends group- and other-readable (`0o755`), violating the
owner-only claim - while the explicitly created leaf directory, the audit
log after its append, and the state file do end owner-only. -/
theorem start_creates_group_readable_parent :
    (fsLookup (start_session_fs 0o022
        [(["tmp"], 0o777), (["home"], 0o700)]
        ["tmp", "rt", "s1"]
        ["home", ".rt_command_logger", ".rtlog_state"])
      ["tmp", "rt"] = some 0o755) ∧
    ownerOnly 0o755 = false ∧
    (fsLookup (start_session_fs 0o022
        [(["tmp"], 0o777), (["home"], 0o700)]
        ["tmp", "rt", "s1"]
        ["home", ".rt_command_logger", ".rtlog_state"])
      ["tmp", "rt", "s1"] = some 0o700) ∧
    (fsLookup (start_session_fs 0o022
        [(["tmp"], 0o777), (["home"], 0o700)]
        ["tmp", "rt", "s1"]
        ["home", ".rt_command_logger", ".rtlog_state"])
      ["tmp", "rt", "s1", "audit.log"] = some 0o600) ∧
    (fsLookup (start_session_fs 0o022
        [(["tmp"], 0o777), (["home"], 0o700)]
        ["tmp", "rt", "s1"]
        ["home", ".rt_command_logger", ".rtlog_state"])
      ["home", ".rt_command_logger", ".rtlog_state"] = some 0o600) := by
  refine ⟨?_, ?_, ?_, ?_, ?_⟩
  · decide
  · decide
  · decide
  · decide
  · decide

/-! ## Lexicographic-versus-chronological order of the timestamp format -/

theorem padNum_length : ∀ k n, (padNum k n).length = k := by
  intro k
  induction k with
  | zero => intro n; rfl
  | succ k ih => intro n; simp [padNum, ih]

theorem digitChar_lt_iff : ∀ a < 10, ∀ b < 10,
    (decide (Nat.digitChar a < Nat.digitChar b) : Bool) = decide (a < b) := by
  decide

theorem digitChar_inj : ∀ a < 10, ∀ b < 10,
    (Nat.digitChar a = Nat.digitChar b ↔ a = b) := by
  decide

theorem lexLt_append : ∀ {xs ys : List Char}, xs.length = ys.length →
    ∀ as bs : List Char,
      lexLt (xs ++ as) (ys ++ bs) =
        (lexLt xs ys || (decide (xs = ys) && lexLt as bs)) := by
  intro xs
  induction xs with
  | nil =>
    intro ys h as bs
    obtain rfl : ys = [] := List.length_eq_zero.mp h.symm
    simp [lexLt]
  | cons x xs' ih =>
    intro ys h as bs
    cases ys with
    | nil => simp at h
    | cons y ys' =>
      simp only [List.cons_append, lexLt, List.append_eq]
      rw [ih (by simpa using h) as bs]
      have hco : (decide (x :: xs' = y :: ys') : Bool) =
          (decide (x = y) && decide (xs' = ys')) := by
        by_cases h1 : x = y <;> by_cases h2 : xs' = ys' <;>
          simp [List.cons_eq_cons, h1, h2]
      rw [hco]
      cases decide (x < y) <;> cases decide (x = y) <;> cases lexLt xs' ys' <;>
        cases decide (xs' = ys') <;> cases lexLt as bs <;> rfl

theorem decide_split {a b c d : Prop} [Decidable a] [Decidable b]
    [Decidable c] [Decidable d] (h : d ↔ a ∨ (b ∧ c)) :
    (decide a || (decide b && decide c)) = decide d := by
  by_cases ha : a <;> by_cases hb : b <;> by_cases hc : c <;>
    simp [ha, hb, hc, h]

theorem padNum_inj : ∀ k n m, n < 10 ^ k → m < 10 ^ k →
    (padNum k n = padNum k m ↔ n = m) := by
  intro k
  induction k with
  | zero =>
    intro n m hn hm
    simp only [pow_zero, Nat.lt_one_iff] at hn hm
    subst hn
    subst hm
    simp
  | succ k ih =>
    intro n m hn hm
    have hp : (10 : Nat) ^ (k + 1) = 10 ^ k * 10 := pow_succ 10 k
    have hn' : n / 10 < 10 ^ k := by omega
    have hm' : m / 10 < 10 ^ k := by omega
    simp only [padNum]
    constructor
    · intro h
      obtain ⟨h1, h2⟩ :=
        List.append_inj h (by rw [padNum_length, padNum_length])
      have e1 : n / 10 = m / 10 := (ih _ _ hn' hm').mp h1
      have e2 : n % 10 = m % 10 :=
        (digitChar_inj _ (Nat.mod_lt _ (by omega)) _
          (Nat.mod_lt _ (by omega))).mp (List.singleton_inj.mp h2)
      omega
    · intro h
      rw [h]

theorem padNum_beq (k n m : Nat) (hn : n < 10 ^ k) (hm : m < 10 ^ k) :
    (decide (padNum k n = padNum k m) : Bool) = decide (n = m) := by
  rw [decide_eq_decide]
  exact padNum_inj k n m hn hm

theorem padNum_lt : ∀ k n m, n < 10 ^ k → m < 10 ^ k →
    lexLt (padNum k n) (padNum k m) = decide (n < m) := by
  intro k
  induction k with
  | zero =>
    intro n m hn hm
    simp only [pow_zero, Nat.lt_one_iff] at hn hm
    subst hn
    subst hm
    simp [padNum, lexLt]
  | succ k ih =>
    intro n m hn hm
    have hp : (10 : Nat) ^ (k + 1) = 10 ^ k * 10 := pow_succ 10 k
    have hn' : n / 10 < 10 ^ k := by omega
    have hm' : m / 10 < 10 ^ k := by omega
    simp only [padNum]
    rw [lexLt_append (by rw [padNum_length, padNum_length])]
    rw [ih (n / 10) (m / 10) hn' hm']
    have hsing : lexLt [Nat.digitChar (n % 10)] [Nat.digitChar (m % 10)] =
        decide (n % 10 < m % 10) := by
      have e := digitChar_lt_iff (n % 10) (Nat.mod_lt _ (by omega))
        (m % 10) (Nat.mod_lt _ (by omega))
      simp only [lexLt, Bool.and_false, Bool.or_false]
      exact e
    rw [hsing, padNum_beq k (n / 10) (m / 10) hn' hm']
    exact decide_split (by omega)

theorem lexLt_cons_same (c : Char) (u v : List Char) :
    lexLt (c :: u) (c :: v) = lexLt u v := by
  simp [lexLt]

theorem lexLt_formatTimestamp (t1 t2 : DateTime)
    (h1 : fitsWidth t1) (h2 : fitsWidth t2) :
    lexLt (formatTimestamp t1) (formatTimestamp t2) = chronoLt t1 t2 := by
  obtain ⟨y1, mo1, d1, ho1, mi1, s1⟩ := t1
  obtain ⟨y2, mo2, d2, ho2, mi2, s2⟩ := t2
  obtain ⟨hy1, hmo1, hd1, hho1, hmi1, hs1⟩ := h1
  obtain ⟨hy2, hmo2, hd2, hho2, hmi2, hs2⟩ := h2
  simp only at hy1 hmo1 hd1 hho1 hmi1 hs1 hy2 hmo2 hd2 hho2 hmi2 hs2
  have e4 : (10 : Nat) ^ 4 = 10000 := by norm_num
  have e2 : (10 : Nat) ^ 2 = 100 := by norm_num
  have hy1' : y1 < 10 ^ 4 := by omega
  have hy2' : y2 < 10 ^ 4 := by omega
  have hmo1' : mo1 < 10 ^ 2 := by omega
  have hmo2' : mo2 < 10 ^ 2 := by omega
  have hd1' : d1 < 10 ^ 2 := by omega
  have hd2' : d2 < 10 ^ 2 := by omega
  have hho1' : ho1 < 10 ^ 2 := by omega
  have hho2' : ho2 < 10 ^ 2 := by omega
  have hmi1' : mi1 < 10 ^ 2 := by omega
  have hmi2' : mi2 < 10 ^ 2 := by omega
  have hs1' : s1 < 10 ^ 2 := by omega
  have hs2' : s2 < 10 ^ 2 := by omega
  have hZ : lexLt ['Z'] ['Z'] = false := by decide
  simp only [formatTimestamp, chronoLt]
  rw [lexLt_append
    (show (padNum 4 y1).length = (padNum 4 y2).length by
      rw [padNum_length, padNum_length])]
  rw [padNum_lt 4 y1 y2 hy1' hy2',
    padNum_beq 4 y1 y2 hy1' hy2']
  rw [lexLt_append
    (show (padNum 2 mo1).length = (padNum 2 mo2).length by
      rw [padNum_length, padNum_length])]
  rw [padNum_lt 2 mo1 mo2 hmo1' hmo2',
    padNum_beq 2 mo1 mo2 hmo1' hmo2']
  rw [lexLt_append
    (show (padNum 2 d1).length = (padNum 2 d2).length by
      rw [padNum_length, padNum_length])]
  rw [padNum_lt 2 d1 d2 hd1' hd2',
    padNum_beq 2 d1 d2 hd1' hd2']
  rw [lexLt_cons_same]
  rw [lexLt_append
    (show (padNum 2 ho1).length = (padNum 2 ho2).length by
      rw [padNum_length, padNum_length])]
  rw [padNum_lt 2 ho1 ho2 hho1' hho2',
    padNum_beq 2 ho1 ho2 hho1' hho2']
  rw [lexLt_append
    (show (padNum 2 mi1).length = (padNum 2 mi2).length by
      rw [padNum_length, padNum_length])]
  rw [padNum_lt 2 mi1 mi2 hmi1' hmi2',
    padNum_beq 2 mi1 mi2 hmi1' hmi2']
  rw [lexLt_append
    (show (padNum 2 s1).length = (padNum 2 s2).length by
      rw [padNum_length, padNum_length])]
  rw [padNum_lt 2 s1 s2 hs1' hs2',
    padNum_beq 2 s1 s2 hs1' hs2']
  rw [hZ]
  simp

/-- C6: the session directory name is the deterministic composition
`<UTCtimestamp>_<hostname>_<user>[_<sanitizedName>]` with the timestamp
formatted `YYYYMMDDTHHMMSSZ`, whose lexicographic order coincides with
chronological order; in particular, `start` with name `"T1190 Exploit!!"`
and outdir `/tmp/rt` at `2025-05-14T14:30:00Z` on host `mac1` as user `op`
yields the directory `/tmp/rt/20250514T143000Z_mac1_op_T1190_Exploit`. -/
theorem session_naming_and_time_order :
    (∀ t1 t2 : DateTime, fitsWidth t1 → fitsWidth t2 →
      lexLt (formatTimestamp t1) (formatTimestamp t2) = chronoLt t1 t2) ∧
    formatTimestamp ⟨2025, 5, 14, 14, 30, 0⟩ =
      ("20250514T143000Z").toList ∧
    session_path (("/tmp/rt").toList)
        (formatTimestamp ⟨2025, 5, 14, 14, 30, 0⟩) (("mac1").toList)
        (("op").toList) (some (("T1190 Exploit!!").toList)) =
      ("/tmp/rt/20250514T143000Z_mac1_op_T1190_Exploit").toList := by
  refine ⟨fun t1 t2 h1 h2 => lexLt_formatTimestamp t1 t2 h1 h2, ?_, ?_⟩
  · decide
  · decide

/-- Witness for C6's order statement at two concrete timestamps one second
apart. -/
theorem session_naming_and_time_order_witness :
    lexLt (formatTimestamp ⟨2025, 5, 14, 14, 30, 0⟩)
        (formatTimestamp ⟨2025, 5, 14, 14, 30, 1⟩) =
      chronoLt ⟨2025, 5, 14, 14, 30, 0⟩ ⟨2025, 5, 14, 14, 30, 1⟩ :=
  session_naming_and_time_order.1 _ _
    (by refine ⟨?_, ?_, ?_, ?_, ?_, ?_⟩ <;> norm_num)
    (by refine ⟨?_, ?_, ?_, ?_, ?_, ?_⟩ <;> norm_num)

end Rtlog
